import Mathlib

/-!
Verification development for the GitHub Python repository scraper
(scraper.py).  The definitions below are a shallow embedding of the
functions of the source file; remote HTTP responses are passed in as
explicit oracle arguments, Python float arithmetic is modelled over ℚ,
and Python exceptions are modelled with Except.  Line references in the
doc comments point into scraper.py.
-/

namespace Scraper

/-! ### Constants (scraper.py lines 24-25) -/

def MAX_RETRIES : Nat := 3

def RETRY_DELAY : Nat := 5

/-! ### Request executor, make_github_request (scraper.py lines 41-72)

The remote is an oracle `att : Nat → Option payload` giving the outcome
of attempt `i` (numbered from 0, as the Python loop variable `attempt`):
`some v` is a decoded 2xx response, `none` a raised RequestException.
The model records the returned value or the raised GitHubAPIError (whose
payload is the attempt count reported in its message), the sequence of
time.sleep durations in seconds, and how many attempts were made. -/

structure RequestResult (α : Type) where
  result : Except Nat α
  sleeps : List Nat
  attemptsMade : Nat

/-- One step of the retry loop of scraper.py lines 43-70: `i` is the
current value of the Python loop variable `attempt`, the fuel argument
is the number of loop iterations still available (MAX_RETRIES - i).  On
failure of the final attempt the GitHubAPIError reports MAX_RETRIES
attempts; otherwise the loop sleeps RETRY_DELAY * 2 ^ attempt seconds
(line 63) and retries. -/
def requestAux (att : Nat → Option α) (i : Nat) : Nat → RequestResult α
  | 0 => { result := Except.error MAX_RETRIES, sleeps := [], attemptsMade := 0 }
  | remaining + 1 =>
    match att i with
    | some v => { result := Except.ok v, sleeps := [], attemptsMade := 1 }
    | none =>
      if remaining = 0 then
        { result := Except.error MAX_RETRIES, sleeps := [], attemptsMade := 1 }
      else
        let rest := requestAux att (i + 1) remaining
        { result := rest.result
          sleeps := RETRY_DELAY * 2 ^ i :: rest.sleeps
          attemptsMade := rest.attemptsMade + 1 }

/-- scraper.py lines 41-72. -/
def make_github_request (att : Nat → Option α) : RequestResult α :=
  requestAux att 0 MAX_RETRIES

/-! ### File statistics, get_file_content_and_stats (scraper.py 187-224) -/

/-- The whitespace class of the Python regex \s (ASCII part; the claims
never depend on non-ASCII whitespace). -/
def pySpace (c : Char) : Bool :=
  c == ' ' || c == '\t' || c == '\n' || c == '\r' || c == '\x0b' || c == '\x0c'

/-- A line counts as a comment when re.match of \s*# succeeds on it:
after leading whitespace it starts with the # marker
(scraper.py line 211). -/
def isCommentLine (l : String) : Bool :=
  match l.data.dropWhile pySpace with
  | '#' :: _ => true
  | _ => false

/-- Line count and comment ratio of decoded content, given as the list
of lines produced by splitlines (scraper.py lines 203-218).  An empty
file short-circuits to (0, 0.0); otherwise the ratio is
comment_lines / code_lines * 100 when there are code lines and 0.0
otherwise.  Python float arithmetic is modelled over ℚ. -/
def fileStats (lines : List String) : Nat × ℚ :=
  if lines.length = 0 then (0, 0)
  else
    let comment_lines := (lines.filter isCommentLine).length
    let code_lines := lines.length - comment_lines
    (lines.length,
      if 0 < code_lines then (comment_lines : ℚ) / (code_lines : ℚ) * 100 else 0)

/-- Body of the contents response for one file: `none` models a JSON
response without a "content" key, `some lines` models a "content" field
whose base64 payload decodes and splits into `lines` (the base64
transport itself is not modelled). -/
abbrev ContentsResp := Option (List String)

/-- scraper.py lines 187-224, with the fetch outcome passed in.  A
GitHubAPIError from the fetch is caught and mapped to ("", 0, 0.0)
(lines 220-224).  When the response has no "content" key, the Python
function body ends without reaching any return statement, so it returns
the Python value None: that path is modelled by `none`. -/
def get_file_content_and_stats (fetch : Except Unit ContentsResp) :
    Option (List String × Nat × ℚ) :=
  match fetch with
  | Except.error _ => some ([], 0, 0)
  | Except.ok none => none
  | Except.ok (some lines) => some (lines, (fileStats lines).1, (fileStats lines).2)

/-! ### Path filter of find_python_files (scraper.py 237-245, 279-285) -/

/-- Boolean test that `pat` occurs as a contiguous subsequence of `s`
(Python substring containment), computed on character lists so that it
evaluates inside the kernel. -/
def containsSeq (pat : List Char) : List Char → Bool
  | [] => pat.isEmpty
  | c :: cs => pat.isPrefixOf (c :: cs) || containsSeq pat cs

def strStartsWith (s pat : String) : Bool := pat.data.isPrefixOf s.data

def strEndsWith (s pat : String) : Bool := pat.data.isSuffixOf s.data

def strContainsSub (s pat : String) : Bool := containsSeq pat.data s.data

/-- Disjunction of re.search over the exclude_patterns list of
scraper.py lines 237-245.  With re.search and no MULTILINE flag, the
anchored patterns ^env/ ^venv/ ^tests/ ^docs/ ^\. hold exactly when the
path starts with the anchored text, and .*/site-packages/ and
.*/dist-packages/ hold exactly when /site-packages/ resp.
/dist-packages/ occurs as a substring (the leading .* may match the
empty string at any search start position). -/
def exclude_match (p : String) : Bool :=
  strStartsWith p "env/" || strStartsWith p "venv/" ||
  strContainsSub p "/site-packages/" || strContainsSub p "/dist-packages/" ||
  strStartsWith p "tests/" || strStartsWith p "docs/" || strStartsWith p "."

/-- One entry of the recursive git tree response. -/
structure TreeEntry where
  type : String
  path : String

/-- scraper.py lines 280-285: an entry is processed further exactly when
it is a blob, its path ends in .py, and no exclude pattern matches. -/
def keepEntry (e : TreeEntry) : Bool :=
  e.type == "blob" && strEndsWith e.path ".py" && !exclude_match e.path

/-! ### File tree walk, find_python_files (scraper.py 227-299) -/

/-- A kept candidate: (path, num_lines, comment_ratio)
(scraper.py line 295). -/
abbrev Candidate := String × Nat × ℚ

/-- The remote responses one find_python_files call consumes.  repoInfo:
`Except.error` is a GitHubAPIError from the metadata fetch, `.ok none`
a response that is not a dict or lacks "default_branch", `.ok (some b)`
resolves the default branch.  tree: `.ok none` models a tree response
without a "tree" key.  fileResp: per-path contents responses. -/
structure RepoRemote where
  repoInfo : Except Unit (Option String)
  tree : Except Unit (Option (List TreeEntry))
  fileResp : String → Except Unit ContentsResp

/-- The per-entry loop of scraper.py lines 279-295.  `Except.error ()`
models the TypeError raised at line 287 when the tuple unpack receives
the Python None produced by get_file_content_and_stats for a response
without "content"; that exception is not a GitHubAPIError, so no handler
in find_python_files catches it and the whole walk is aborted. -/
def walkFiles (fileResp : String → Except Unit ContentsResp)
    (min_lines max_lines : Int) (quality_threshold : ℚ) :
    List TreeEntry → Except Unit (List Candidate)
  | [] => Except.ok []
  | e :: rest =>
    if keepEntry e then
      match get_file_content_and_stats (fileResp e.path) with
      | none => Except.error ()
      | some (_, num_lines, comment_ratio) =>
        match walkFiles fileResp min_lines max_lines quality_threshold rest with
        | Except.error u => Except.error u
        | Except.ok rs =>
          if min_lines ≤ (num_lines : Int) ∧ (num_lines : Int) ≤ max_lines ∧
              quality_threshold ≤ comment_ratio then
            Except.ok ((e.path, num_lines, comment_ratio) :: rs)
          else Except.ok rs
    else walkFiles fileResp min_lines max_lines quality_threshold rest

/-- scraper.py lines 227-299.  A failed or shapeless metadata fetch and
a failed or shapeless tree fetch all yield the empty result (lines
250-277); the surviving entries are processed by the loop. -/
def find_python_files (r : RepoRemote) (min_lines max_lines : Int)
    (quality_threshold : ℚ) : Except Unit (List Candidate) :=
  match r.repoInfo with
  | Except.error _ => Except.ok []
  | Except.ok none => Except.ok []
  | Except.ok (some _) =>
    match r.tree with
    | Except.error _ => Except.ok []
    | Except.ok none => Except.ok []
    | Except.ok (some entries) =>
      walkFiles r.fileResp min_lines max_lines quality_threshold entries

/-! ### Dedup coordination, process_repository (scraper.py 342-381)

A dedup key is the pair (repo html_url, file path) checked at line 365.
Because the check-and-insert on the shared processed_files set is
performed under processed_files_lock (lines 366-376) and the
pre-existing snapshot is immutable, every concurrent interleaving of
worker tasks is observationally a sequence of atomic per-key steps; the
key list below ranges over all such sequences. -/

abbrev Key := String × String

/-- Dedup state of one run: `emitted` is both the concatenation of the
per-task result key lists in emission order and the contents of the
shared processed_files set, which receive exactly the same keys
(scraper.py lines 368-376, with processed_files starting empty at line
473); `skipped` is the sum of the per-task skipped_count counters
(line 378). -/
structure DedupState where
  emitted : List Key
  skipped : Nat

/-- One dedup check (scraper.py lines 364-378): a key present in the
pre-existing snapshot increments the skip counter; otherwise, under the
lock, a key not yet processed is emitted and recorded, and a key already
processed this run is dropped without touching any counter. -/
def process_key (existing : List Key) (s : DedupState) (k : Key) : DedupState :=
  if k ∈ existing then { s with skipped := s.skipped + 1 }
  else if k ∈ s.emitted then s
  else { s with emitted := s.emitted ++ [k] }

/-- All dedup checks of one run, in the order the lock serializes them. -/
def dedupRun (existing : List Key) (s : DedupState) : List Key → DedupState
  | [] => s
  | k :: ks => dedupRun existing (process_key existing s k) ks

/-! ### Repository search, search_repositories (scraper.py 108-184)

The remote search index is modelled by the full result list `allItems`
(in remote order) of which page `p` (numbered from 1) serves the slice
[(p-1)*per_page, p*per_page), together with an optional page number
`failAt` at which the request raises GitHubAPIError after its retries.
The rate-limit pause inside the loop affects timing only, never the
returned list, and is modelled separately (searchThrottle below). -/

def per_page : Nat := 100

/-- Outcome of the page request of scraper.py lines 150-160. -/
def fetchPage (allItems : List α) (failAt : Option Nat) (page : Nat) :
    Except Unit (List α) :=
  if failAt = some page then Except.error ()
  else Except.ok ((allItems.drop ((page - 1) * per_page)).take per_page)

/-- The while loop of scraper.py lines 131-180: while fewer than
max_repos items are accumulated, fetch the next page; a raised error
breaks with the partial results (lines 175-180); an empty or missing
items array breaks (lines 162-163); items are appended one at a time,
stopping as soon as max_repos is reached (lines 165-169); a short page
breaks after appending (lines 172-173).  The loop adds at least one item
per iteration, so max_repos + 1 iterations of fuel make the model total
without cutting any reachable branch. -/
def searchLoop (allItems : List α) (failAt : Option Nat) (max_repos : Nat) :
    Nat → Nat → List α → List α
  | 0, _, acc => acc
  | fuel + 1, page, acc =>
    if acc.length < max_repos then
      match fetchPage allItems failAt page with
      | Except.error _ => acc
      | Except.ok items =>
        if items.isEmpty then acc
        else
          let acc2 := acc ++ items.take (max_repos - acc.length)
          if items.length < per_page then acc2
          else searchLoop allItems failAt max_repos fuel (page + 1) acc2
    else acc

/-- scraper.py lines 108-184, including the final repos[:max_repos]
truncation of line 184. -/
def search_repositories (allItems : List α) (failAt : Option Nat)
    (max_repos : Nat) : List α :=
  (searchLoop allItems failAt max_repos (max_repos + 1) 1 []).take max_repos

/-! ### Rate-limit throttling (scraper.py 131-147 and 477-508) -/

/-- One rate-limit category of the snapshot built at lines 86-95. -/
structure RateCategory where
  remaining : Nat
  reset : Int

structure RateLimitSnapshot where
  core : RateCategory
  search : RateCategory

/-- The wait computation shared by both throttle sites: seconds from now
until one second past the reset epoch, clamped at zero (scraper.py lines
137-138 and 493-494).  Python datetime subtraction is modelled with the
current time `now` in ℚ seconds since the epoch. -/
def throttleWait (reset : Int) (now : ℚ) : ℚ :=
  max 0 ((reset : ℚ) - now + 1)

/-- The inline throttle before each search page request (scraper.py
lines 132-147): when the fresh snapshot exists and its search category
has at most 1 remaining, sleep throttleWait seconds.  The result is the
duration slept, `none` when no pause happens (including the case where
the snapshot could not be fetched). -/
def searchThrottle (rate_limit : Option RateLimitSnapshot) (now : ℚ) : Option ℚ :=
  match rate_limit with
  | none => none
  | some rl =>
    if rl.search.remaining ≤ 1 then some (throttleWait rl.search.reset now)
    else none

/-- The one-time pre-flight check of scraper.py lines 489-498: the run
sleeps throttleWait seconds exactly when the core category has 0
remaining. -/
def preflightCoreWait (rl : RateLimitSnapshot) (now : ℚ) : Option ℚ :=
  if rl.core.remaining = 0 then some (throttleWait rl.core.reset now)
  else none

/-! ## Claim theorems -/

/-- C4: for every call to the request executor, if some attempt before
the fixed ceiling of 3 succeeds (all earlier attempts having failed),
the call returns that attempt's decoded payload; if all 3 attempts fail,
the call fails with a GitHubAPIError reporting 3 attempts; and no call
ever makes more than 3 attempts. -/
theorem C4_retry_contract {α : Type} (att : Nat → Option α) :
    (make_github_request att).attemptsMade ≤ MAX_RETRIES ∧
    (∀ i v, i < MAX_RETRIES → att i = some v → (∀ j, j < i → att j = none) →
      (make_github_request att).result = Except.ok v) ∧
    ((∀ i, i < MAX_RETRIES → att i = none) →
      (make_github_request att).result = Except.error MAX_RETRIES ∧
      (make_github_request att).attemptsMade = MAX_RETRIES) := by
  refine ⟨?_, ?_, ?_⟩
  · rcases h0 : att 0 with _ | v0 <;> rcases h1 : att 1 with _ | v1 <;>
      rcases h2 : att 2 with _ | v2 <;>
      simp [make_github_request, requestAux, MAX_RETRIES, h0, h1, h2]
  · intro i v hi hv hprev
    have hi3 : i < 3 := hi
    interval_cases i
    · simp [make_github_request, requestAux, hv]
    · have h0 := hprev 0 (by omega)
      simp [make_github_request, requestAux, h0, hv]
    · have h0 := hprev 0 (by omega)
      have h1 := hprev 1 (by omega)
      simp [make_github_request, requestAux, h0, h1, hv]
  · intro h
    have h0 : att 0 = none := h 0 (by decide)
    have h1 : att 1 = none := h 1 (by decide)
    have h2 : att 2 = none := h 2 (by decide)
    constructor <;>
      simp [make_github_request, requestAux, MAX_RETRIES, h0, h1, h2]

/-- C4 witness: a run succeeding on the second attempt returns its
payload, and a run of three failures reports the error. -/
theorem C4_retry_contract_witness :
    (make_github_request (fun i => if i = 1 then some 7 else none)).result =
      Except.ok 7 ∧
    (make_github_request (fun _ => (none : Option Nat))).result =
      Except.error MAX_RETRIES :=
  ⟨(C4_retry_contract (fun i => if i = 1 then some 7 else none)).2.1 1 7
      (by decide) (by decide) (by decide),
   ((C4_retry_contract (fun _ => (none : Option Nat))).2.2 (by decide)).1⟩

/-- C5: the sequence of delays slept by the request executor is exactly
5 * 2 ^ 0, 5 * 2 ^ 1, ... for the retries it performs, in order (so
retry k, 1-indexed, is preceded by a sleep of 5 * 2 ^ (k - 1) seconds),
and at most MAX_RETRIES - 1 = 2 sleeps happen, so no delay follows the
final failed attempt. -/
theorem C5_backoff_delays {α : Type} (att : Nat → Option α) :
    (make_github_request att).sleeps =
      (List.range (make_github_request att).sleeps.length).map
        (fun k => RETRY_DELAY * 2 ^ k) ∧
    (make_github_request att).sleeps.length ≤ MAX_RETRIES - 1 := by
  rcases h0 : att 0 with _ | v0 <;> rcases h1 : att 1 with _ | v1 <;>
    rcases h2 : att 2 with _ | v2 <;>
    simp [make_github_request, requestAux, MAX_RETRIES, RETRY_DELAY, h0, h1, h2] <;>
    decide

/-- C7: for every file, the reported line count is the number of lines,
total lines = comment lines + code lines exactly, the comment ratio is
nonnegative, it equals commentLines / codeLines * 100 whenever there is
at least one code line, and it is exactly 0 when there are no code lines
(the empty file included). -/
theorem C7_comment_stats (lines : List String) :
    (fileStats lines).1 = lines.length ∧
    (lines.filter isCommentLine).length +
      (lines.length - (lines.filter isCommentLine).length) = lines.length ∧
    0 ≤ (fileStats lines).2 ∧
    (0 < lines.length - (lines.filter isCommentLine).length →
      (fileStats lines).2 =
        ((lines.filter isCommentLine).length : ℚ) /
          ((lines.length - (lines.filter isCommentLine).length : ℕ) : ℚ) * 100) ∧
    (lines.length - (lines.filter isCommentLine).length = 0 →
      (fileStats lines).2 = 0) := by
  have hle : (lines.filter isCommentLine).length ≤ lines.length :=
    List.length_filter_le _ _
  by_cases h : lines.length = 0
  · have hnil : lines = [] := List.length_eq_zero.mp h
    subst hnil
    simp [fileStats]
  · refine ⟨by simp [fileStats, h], by omega, ?_, ?_, ?_⟩
    · simp only [fileStats, h, if_false]
      split
      · positivity
      · exact le_refl 0
    · intro hcode
      simp [fileStats, h, hcode]
    · intro hcode
      simp [fileStats, h, hcode]

/-- C7 witness: a two-line file with one comment line has one code line
and ratio 1 / 1 * 100. -/
theorem C7_comment_stats_witness :
    (fileStats ["# a", "x = 1"]).2 =
      (((["# a", "x = 1"].filter isCommentLine).length : ℚ) /
        ((["# a", "x = 1"].length -
          (["# a", "x = 1"].filter isCommentLine).length : ℕ) : ℚ) * 100) :=
  (C7_comment_stats ["# a", "x = 1"]).2.2.2.1 (by decide)

/-- C9 counterexample: the claim says the pre-flight check pauses
exactly when the checked category has remaining ≤ 1, but with core
remaining = 1 (which satisfies 1 ≤ 1) the pre-flight check of the code
does not pause at all: its condition is remaining == 0. -/
theorem C9_counterexample :
    preflightCoreWait ⟨⟨1, 1000⟩, ⟨50, 1000⟩⟩ 0 = none ∧ 1 ≤ 1 :=
  ⟨rfl, le_refl 1⟩

/-- C9 amended: the inline search throttle pauses exactly when the fresh
snapshot's search category has remaining ≤ 1 (and never pauses when the
snapshot fetch failed), while the one-time pre-flight check pauses
exactly when the core category has remaining = 0; at both sites the
pause duration is max(0, resetEpochSeconds - now + 1) seconds, which is
nonnegative. -/
theorem C9_throttle_characterization (rl : RateLimitSnapshot) (now : ℚ) :
    ((searchThrottle (some rl) now).isSome ↔ rl.search.remaining ≤ 1) ∧
    searchThrottle none now = none ∧
    (∀ w, searchThrottle (some rl) now = some w →
      w = max 0 ((rl.search.reset : ℚ) - now + 1) ∧ 0 ≤ w) ∧
    ((preflightCoreWait rl now).isSome ↔ rl.core.remaining = 0) ∧
    (∀ w, preflightCoreWait rl now = some w →
      w = max 0 ((rl.core.reset : ℚ) - now + 1) ∧ 0 ≤ w) := by
  refine ⟨?_, rfl, ?_, ?_, ?_⟩
  · by_cases h : rl.search.remaining ≤ 1 <;> simp [searchThrottle, h]
  · intro w hw
    by_cases h : rl.search.remaining ≤ 1
    · simp only [searchThrottle, h, if_true, Option.some.injEq] at hw
      refine ⟨hw.symm, ?_⟩
      rw [← hw]
      exact le_max_left 0 _
    · simp [searchThrottle, h] at hw
  · by_cases h : rl.core.remaining = 0 <;> simp [preflightCoreWait, h]
  · intro w hw
    by_cases h : rl.core.remaining = 0
    · simp only [preflightCoreWait, h, if_true, Option.some.injEq] at hw
      refine ⟨hw.symm, ?_⟩
      rw [← hw]
      exact le_max_left 0 _
    · simp [preflightCoreWait, h] at hw

/-- C9 witness: with 1 search call remaining the inline throttle pauses;
with 0 core calls remaining the pre-flight check pauses, for the
computed nonnegative duration. -/
theorem C9_throttle_witness :
    (searchThrottle (some { core := ⟨5, 1000⟩, search := ⟨1, 10⟩ }) 3).isSome ∧
    (preflightCoreWait { core := ⟨0, 10⟩, search := ⟨5, 1000⟩ } 3).isSome ∧
    (0 : ℚ) ≤ throttleWait 10 3 :=
  ⟨(C9_throttle_characterization { core := ⟨5, 1000⟩, search := ⟨1, 10⟩ } 3).1.mpr
      (by decide),
   (C9_throttle_characterization { core := ⟨0, 10⟩, search := ⟨5, 1000⟩ } 3).2.2.2.1.mpr
      rfl,
   ((C9_throttle_characterization { core := ⟨5, 1000⟩, search := ⟨1, 10⟩ } 3).2.2.1
      (throttleWait 10 3) rfl).2⟩

/-! ### Dedup invariants (C1, C3) -/

/-- One dedup step preserves distinctness of the emitted keys and their
disjointness from the pre-existing snapshot. -/
theorem process_key_inv (existing : List Key) (s : DedupState) (k : Key)
    (h1 : s.emitted.Nodup) (h2 : ∀ x ∈ existing, x ∉ s.emitted) :
    (process_key existing s k).emitted.Nodup ∧
    (∀ x ∈ existing, x ∉ (process_key existing s k).emitted) := by
  unfold process_key
  by_cases hE : k ∈ existing
  · simp only [hE, if_true]
    exact ⟨h1, h2⟩
  · simp only [hE, if_false]
    by_cases hP : k ∈ s.emitted
    · simp only [hP, if_true]
      exact ⟨h1, h2⟩
    · simp only [hP, if_false]
      constructor
      · rw [List.nodup_append]
        refine ⟨h1, List.nodup_singleton k, ?_⟩
        intro a ha hak
        rw [List.mem_singleton] at hak
        exact hP (hak ▸ ha)
      · intro x hx
        simp only [List.mem_append, List.mem_singleton]
        push_neg
        exact ⟨h2 x hx, fun hxk => hE (hxk ▸ hx)⟩

/-- A dedup run preserves distinctness of the emitted keys and their
disjointness from the pre-existing snapshot. -/
theorem dedupRun_inv (existing : List Key) :
    ∀ ks s, s.emitted.Nodup → (∀ x ∈ existing, x ∉ s.emitted) →
      (dedupRun existing s ks).emitted.Nodup ∧
      (∀ x ∈ existing, x ∉ (dedupRun existing s ks).emitted) := by
  intro ks
  induction ks with
  | nil => intro s h1 h2; exact ⟨h1, h2⟩
  | cons k ks ih =>
    intro s h1 h2
    rw [dedupRun]
    have h := process_key_inv existing s k h1 h2
    exact ih _ h.1 h.2

/-- A list of keys without duplicates holds any key at most once. -/
theorem count_le_one_of_nodup (k : Key) :
    ∀ l : List Key, l.Nodup → l.count k ≤ 1 := by
  intro l
  induction l with
  | nil => intro h; simp
  | cons a l ih =>
    intro h
    rcases List.nodup_cons.mp h with ⟨ha, hl⟩
    rw [List.count_cons]
    by_cases hk : k = a
    · subst hk
      have hz : l.count k = 0 := List.count_eq_zero.mpr ha
      simp [hz]
    · have hf : ¬ a = k := fun h => hk h.symm
      simpa [hf] using ih hl

/-- C1: for every pre-existing snapshot and every serialized sequence of
dedup checks (hence for every interleaving of worker tasks, the lock
making each check-and-insert atomic), every key is emitted at most once,
and a key present in the pre-existing snapshot is never emitted. -/
theorem C1_dedup_at_most_once (existing ks : List Key) (k : Key) :
    (dedupRun existing ⟨[], 0⟩ ks).emitted.count k ≤ 1 ∧
    (k ∈ existing → k ∉ (dedupRun existing ⟨[], 0⟩ ks).emitted) := by
  have h := dedupRun_inv existing ks ⟨[], 0⟩ List.nodup_nil (by simp)
  exact ⟨count_le_one_of_nodup k _ h.1, fun hk => h.2 k hk⟩

/-- C1 witness: with key ("u", "a") pre-existing, a run that checks it
never emits it. -/
theorem C1_dedup_at_most_once_witness :
    ("u", "a") ∉ (dedupRun [("u", "a")] ⟨[], 0⟩ [("u", "a"), ("u", "b")]).emitted :=
  (C1_dedup_at_most_once [("u", "a")] [("u", "a"), ("u", "b")] ("u", "a")).2
    (by decide)

/-- One dedup step only ever appends to the emitted list. -/
theorem process_key_emitted_extend (existing : List Key) (s : DedupState) (k : Key) :
    ∃ u, (process_key existing s k).emitted = s.emitted ++ u := by
  unfold process_key
  by_cases hE : k ∈ existing
  · exact ⟨[], by simp [hE]⟩
  · by_cases hP : k ∈ s.emitted
    · exact ⟨[], by simp [hE, hP]⟩
    · exact ⟨[k], by simp [hE, hP]⟩

/-- A dedup run only ever appends to the emitted list. -/
theorem dedupRun_emitted_extend (existing : List Key) :
    ∀ ks s, ∃ t, (dedupRun existing s ks).emitted = s.emitted ++ t := by
  intro ks
  induction ks with
  | nil => intro s; exact ⟨[], by simp [dedupRun]⟩
  | cons k ks ih =>
    intro s
    rw [dedupRun]
    obtain ⟨u, hu⟩ := process_key_emitted_extend existing s k
    obtain ⟨t, ht⟩ := ih (process_key existing s k)
    exact ⟨u ++ t, by rw [ht, hu, List.append_assoc]⟩

/-- Every checked key that is not in the pre-existing snapshot ends up
emitted (by whichever task reaches it first). -/
theorem dedupRun_mem_emitted (existing : List Key) :
    ∀ ks s k, k ∈ ks → k ∉ existing → k ∈ (dedupRun existing s ks).emitted := by
  intro ks
  induction ks with
  | nil => intro s k hk; simp at hk
  | cons a ks ih =>
    intro s k hk hkE
    rw [dedupRun]
    rcases List.mem_cons.mp hk with heq | hmem
    · subst heq
      obtain ⟨t, ht⟩ := dedupRun_emitted_extend existing ks (process_key existing s k)
      rw [ht]
      apply List.mem_append_left
      unfold process_key
      by_cases hP : k ∈ s.emitted
      · simp [hkE, hP]
      · simp [hkE, hP]
    · exact ih _ k hmem hkE

/-- A run all of whose checked keys are already in the snapshot emits
nothing and counts every check as skipped. -/
theorem dedupRun_all_existing (existing : List Key) :
    ∀ ks s, (∀ k ∈ ks, k ∈ existing) →
      dedupRun existing s ks =
        { emitted := s.emitted, skipped := s.skipped + ks.length } := by
  intro ks
  induction ks with
  | nil => intro s h; simp [dedupRun]
  | cons a ks ih =>
    intro s h
    rw [dedupRun]
    have ha : a ∈ existing := h a (List.mem_cons_self a ks)
    have hstep : process_key existing s a =
        { emitted := s.emitted, skipped := s.skipped + 1 } := by
      unfold process_key
      simp [ha]
    rw [hstep, ih _ (fun k hk => h k (List.mem_cons_of_mem a hk))]
    simp only [List.length_cons]
    congr 1
    omega

/-- One dedup step accounts for at most one emission or skip count. -/
theorem process_key_sum (existing : List Key) (s : DedupState) (k : Key) :
    (process_key existing s k).emitted.length + (process_key existing s k).skipped ≤
      s.emitted.length + s.skipped + 1 := by
  unfold process_key
  by_cases hE : k ∈ existing
  · simp only [hE, if_true]
    omega
  · by_cases hP : k ∈ s.emitted
    · simp [hE, hP]
    · simp only [hE, hP, if_false, List.length_append, List.length_singleton]
      omega

/-- Each checked key accounts for at most one emission or skip count. -/
theorem dedupRun_accounting (existing : List Key) :
    ∀ ks s,
      (dedupRun existing s ks).emitted.length + (dedupRun existing s ks).skipped ≤
        s.emitted.length + s.skipped + ks.length := by
  intro ks
  induction ks with
  | nil => intro s; simp [dedupRun]
  | cons a ks ih =>
    intro s
    rw [dedupRun]
    refine le_trans (ih _) ?_
    have hsum := process_key_sum existing s a
    simp only [List.length_cons]
    omega

/-- C3 counterexample: with pre-existing snapshot {("u", "p")} and the
single candidate ("u", "p"), the first run emits 0 records; re-running
against the pre-existing data extended with that run's records gives a
skip count of 1, not the previous record count 0, refuting the claimed
equality (the skip counter counts pre-existing rejections, not previous
emissions). -/
theorem C3_counterexample :
    (dedupRun ([("u", "p")] ++
        (dedupRun [("u", "p")] ⟨[], 0⟩ [("u", "p")]).emitted) ⟨[], 0⟩
        [("u", "p")]).skipped ≠
      (dedupRun [("u", "p")] ⟨[], 0⟩ [("u", "p")]).emitted.length := by
  decide

/-- C3 amended: each candidate is emitted when its key is absent from
both the pre-existing snapshot and the keys already processed this run,
increments the skip counter exactly when the key is in the pre-existing
snapshot, and is otherwise dropped without being counted, so emissions
plus skips never exceed the number of candidates; re-running with
identical candidates against the pre-existing data extended with the
previous run's records yields zero new records and a skip count equal to
the total candidate count. -/
theorem C3_rerun_amended (existing ks : List Key) :
    (dedupRun (existing ++ (dedupRun existing ⟨[], 0⟩ ks).emitted) ⟨[], 0⟩
      ks).emitted = [] ∧
    (dedupRun (existing ++ (dedupRun existing ⟨[], 0⟩ ks).emitted) ⟨[], 0⟩
      ks).skipped = ks.length ∧
    (dedupRun existing ⟨[], 0⟩ ks).emitted.length +
      (dedupRun existing ⟨[], 0⟩ ks).skipped ≤ ks.length := by
  have hall : ∀ k ∈ ks, k ∈ existing ++ (dedupRun existing ⟨[], 0⟩ ks).emitted := by
    intro k hk
    rw [List.mem_append]
    by_cases hE : k ∈ existing
    · exact Or.inl hE
    · exact Or.inr (dedupRun_mem_emitted existing ks ⟨[], 0⟩ k hk hE)
  have h2 := dedupRun_all_existing
    (existing ++ (dedupRun existing ⟨[], 0⟩ ks).emitted) ks ⟨[], 0⟩ hall
  have h3 := dedupRun_accounting existing ks ⟨[], 0⟩
  refine ⟨?_, ?_, by simpa using h3⟩
  · rw [h2]
  · rw [h2]
    simp

/-! ### Path filter characterization (C6) -/

/-- Split a character list at slashes (the path separator), for the
directory-segment wording of C6. -/
def splitSlash : List Char → List (List Char)
  | [] => [[]]
  | c :: cs =>
    if c = '/' then [] :: splitSlash cs
    else
      match splitSlash cs with
      | s :: rest => (c :: s) :: rest
      | [] => [[c]]

/-- The exclusion predicate exactly as C6 words it: a path rooted at
env/, venv/, tests/ or docs/, a site-packages or dist-packages directory
segment at any position (the first included), or a leading dot. -/
def excludedSpec (p : String) : Bool :=
  strStartsWith p "env/" || strStartsWith p "venv/" ||
  strStartsWith p "tests/" || strStartsWith p "docs/" ||
  (splitSlash p.data).dropLast.contains "site-packages".data ||
  (splitSlash p.data).dropLast.contains "dist-packages".data ||
  strStartsWith p "."

/-- C6 counterexample: the blob site-packages/a.py has a site-packages
directory segment, so the claim says it must not survive the filter, yet
the code keeps it: the pattern .*/site-packages/ needs a preceding
slash, which a root-level segment does not have. -/
theorem C6_counterexample :
    keepEntry ⟨"blob", "site-packages/a.py"⟩ = true ∧
    excludedSpec "site-packages/a.py" = true := by
  decide

/-- The exclusion predicate as amended: the site-packages and
dist-packages segments must sit in non-root position, that is,
/site-packages/ or /dist-packages/ must occur as a substring of the
path. -/
def excludedAmended (p : String) : Bool :=
  (["env/", "venv/", "tests/", "docs/"].any fun d => strStartsWith p d) ||
  strContainsSub p "/site-packages/" || strContainsSub p "/dist-packages/" ||
  strStartsWith p "."

/-- C6 amended: a tree entry survives the filter exactly when it is a
blob whose path ends in .py and is not excluded, where a path is
excluded exactly when it is rooted at env/, venv/, tests/ or docs/,
contains a site-packages/ or dist-packages/ segment in non-root position
(equivalently, /site-packages/ or /dist-packages/ as a substring), or
begins with a dot; in particular tests/unit/test_x.py is excluded while
app/tests_helper.py survives (prefix match, not substring). -/
theorem C6_filter_characterization (e : TreeEntry) :
    keepEntry e =
      (e.type == "blob" && strEndsWith e.path ".py" && !excludedAmended e.path) ∧
    keepEntry ⟨"blob", "tests/unit/test_x.py"⟩ = false ∧
    keepEntry ⟨"blob", "app/tests_helper.py"⟩ = true := by
  refine ⟨?_, by decide, by decide⟩
  simp only [keepEntry, exclude_match, excludedAmended, List.any_cons, List.any_nil,
    Bool.or_false]
  congr 2
  simp [Bool.or_assoc, Bool.or_comm, Bool.or_left_comm]

/-! ### Missing content shape and failed fetches (C2, C10) -/

/-- A repository whose tree holds two source files where the contents
response for a.py has no "content" key while b.py is a normal one-line
file. -/
def noContentRemote : RepoRemote :=
  { repoInfo := Except.ok (some "main")
    tree := Except.ok (some [⟨"blob", "a.py"⟩, ⟨"blob", "b.py"⟩])
    fileResp := fun p =>
      if p = "a.py" then Except.ok none else Except.ok (some ["# note"]) }

/-- C2 evaluated at the failing input: with the a.py contents response
lacking "content", the walk over the repository aborts with the
unpacking TypeError instead of treating a.py as no data, and the
sibling file b.py, which on its own would contribute a candidate, is
lost with it. -/
theorem C2_missing_content_aborts_walk :
    find_python_files noContentRemote 1 100 0 = Except.error () ∧
    walkFiles noContentRemote.fileResp 1 100 0 [⟨"blob", "b.py"⟩] =
      Except.ok [("b.py", 1, 0)] := by
  constructor <;> rfl

/-- Every kept entry whose contents fetch fails after exhausting retries
is reported with 0 lines and ratio 0 and, when the bounds admit it and
the walk as a whole completes, appears among the returned candidates. -/
theorem walkFiles_failed_file_mem
    (fileResp : String → Except Unit ContentsResp)
    (min_lines max_lines : Int) (q : ℚ) :
    ∀ entries res e,
      walkFiles fileResp min_lines max_lines q entries = Except.ok res →
      e ∈ entries → keepEntry e = true → fileResp e.path = Except.error () →
      min_lines ≤ 0 → 0 ≤ max_lines → q ≤ 0 →
      (e.path, 0, (0 : ℚ)) ∈ res := by
  intro entries
  induction entries with
  | nil =>
    intro res e hok hmem
    simp at hmem
  | cons a rest ih =>
    intro res e hok hmem hkeep hfail hmin hmax hq
    rcases List.mem_cons.mp hmem with heq | hmem2
    · subst heq
      simp only [walkFiles, hkeep, if_true] at hok
      rw [hfail] at hok
      simp only [get_file_content_and_stats] at hok
      cases hrest : walkFiles fileResp min_lines max_lines q rest with
      | error u =>
        rw [hrest] at hok
        simp at hok
      | ok rs =>
        rw [hrest] at hok
        dsimp only at hok
        have hcond : min_lines ≤ ((0 : ℕ) : Int) ∧ ((0 : ℕ) : Int) ≤ max_lines ∧
            q ≤ 0 := by
          refine ⟨by simpa using hmin, by simpa using hmax, hq⟩
        rw [if_pos hcond] at hok
        simp only [Except.ok.injEq] at hok
        rw [← hok]
        exact List.mem_cons_self _ _
    · simp only [walkFiles] at hok
      by_cases hka : keepEntry a
      · rw [if_pos hka] at hok
        cases hga : get_file_content_and_stats (fileResp a.path) with
        | none =>
          rw [hga] at hok
          simp at hok
        | some t =>
          obtain ⟨c, n, ratio⟩ := t
          rw [hga] at hok
          cases hrest : walkFiles fileResp min_lines max_lines q rest with
          | error u =>
            rw [hrest] at hok
            simp at hok
          | ok rs =>
            rw [hrest] at hok
            dsimp only at hok
            have hmem3 := ih rs e hrest hmem2 hkeep hfail hmin hmax hq
            by_cases hcond : min_lines ≤ (n : Int) ∧ (n : Int) ≤ max_lines ∧
                q ≤ ratio
            · rw [if_pos hcond] at hok
              simp only [Except.ok.injEq] at hok
              rw [← hok]
              exact List.mem_cons_of_mem _ hmem3
            · rw [if_neg hcond] at hok
              simp only [Except.ok.injEq] at hok
              rw [← hok]
              exact hmem3
      · rw [if_neg hka] at hok
        exact ih res e hok hmem2 hkeep hfail hmin hmax hq

/-- A repository whose only candidate file fails to fetch after
exhausting its retries. -/
def failFetchRemote : RepoRemote :=
  { repoInfo := Except.ok (some "main")
    tree := Except.ok (some [⟨"blob", "a.py"⟩])
    fileResp := fun _ => Except.error () }

/-- C10 counterexample: with minLines = -1 ≤ 0 and qualityThreshold =
0 ≤ 0 but maxLines = -1, the failed file (0 lines) does not pass the
line-count filter, so nothing is emitted, refuting the claim as stated,
which omits the condition 0 ≤ maxLines. -/
theorem C10_counterexample :
    find_python_files failFetchRemote (-1) (-1) 0 = Except.ok [] ∧
    (-1 : Int) ≤ 0 ∧ (0 : ℚ) ≤ 0 :=
  ⟨rfl, by decide, le_refl 0⟩

/-- C10 amended: when the contents fetch for a kept file fails after
exhausting its retries, the stats helper reports 0 lines and ratio 0.0,
and whenever minLines ≤ 0 ≤ maxLines, qualityThreshold ≤ 0 and the walk
over that repository completes without aborting, the file passes both
filters and is emitted as a candidate with line count 0. -/
theorem C10_failed_fetch_emitted (r : RepoRemote) (b : String)
    (entries : List TreeEntry) (res : List Candidate) (e : TreeEntry)
    (min_lines max_lines : Int) (q : ℚ)
    (hinfo : r.repoInfo = Except.ok (some b))
    (htree : r.tree = Except.ok (some entries))
    (hok : find_python_files r min_lines max_lines q = Except.ok res)
    (hmem : e ∈ entries) (hkeep : keepEntry e = true)
    (hfail : r.fileResp e.path = Except.error ())
    (hmin : min_lines ≤ 0) (hmax : 0 ≤ max_lines) (hq : q ≤ 0) :
    get_file_content_and_stats (r.fileResp e.path) = some ([], 0, 0) ∧
    (e.path, 0, (0 : ℚ)) ∈ res := by
  have hwalk : walkFiles r.fileResp min_lines max_lines q entries =
      Except.ok res := by
    unfold find_python_files at hok
    rw [hinfo, htree] at hok
    exact hok
  constructor
  · rw [hfail]
    rfl
  · exact walkFiles_failed_file_mem r.fileResp min_lines max_lines q entries res e
      hwalk hmem hkeep hfail hmin hmax hq

/-- C10 witness: with bounds 0 ≤ 0 ≤ 100 and threshold 0, the failed
file a.py is emitted with line count 0. -/
theorem C10_failed_fetch_emitted_witness :
    ("a.py", 0, (0 : ℚ)) ∈ [(("a.py" : String), 0, (0 : ℚ))] ∧
    get_file_content_and_stats (failFetchRemote.fileResp "a.py") =
      some ([], 0, 0) := by
  have h := C10_failed_fetch_emitted failFetchRemote "main" [⟨"blob", "a.py"⟩]
    [("a.py", 0, 0)] ⟨"blob", "a.py"⟩ 0 100 0 rfl rfl rfl
    (List.mem_cons_self _ _) rfl rfl (by decide) (by decide) (le_refl 0)
  exact ⟨h.2, h.1⟩

/-! ### Search pagination (C8) -/

/-- Loop invariant of the search pagination: entering an iteration at
page `page` with an accumulator that is the fully-paged prefix of the
remote list, the loop returns a prefix of the remote list whose length
is capped by max_repos, reaches min max_repos allItems.length when no
call fails, and reaches the prefix before the failing page when page q
fails. -/
theorem searchLoop_spec {α : Type} (allItems : List α) (failAt : Option Nat)
    (max_repos : Nat) :
    ∀ fuel page acc,
      1 ≤ page →
      acc = allItems.take acc.length →
      acc.length = min max_repos ((page - 1) * per_page) →
      (page - 1) * per_page ≤ allItems.length →
      max_repos < acc.length + fuel →
      (∀ q, failAt = some q → 1 ≤ q → page ≤ q) →
      searchLoop allItems failAt max_repos fuel page acc =
        allItems.take (searchLoop allItems failAt max_repos fuel page acc).length ∧
      (searchLoop allItems failAt max_repos fuel page acc).length ≤ max_repos ∧
      ((failAt = none ∨ failAt = some 0) →
        (searchLoop allItems failAt max_repos fuel page acc).length =
          min max_repos allItems.length) ∧
      (∀ q, failAt = some q → 1 ≤ q →
        (searchLoop allItems failAt max_repos fuel page acc).length =
          min max_repos (min ((q - 1) * per_page) allItems.length)) := by
  intro fuel
  induction fuel with
  | zero =>
    intro page acc _ _ h3 _ h5 _
    have hub : acc.length ≤ max_repos := by
      rw [h3]
      exact Nat.min_le_left _ _
    omega
  | succ fuel ih =>
    intro page acc h1 h2 h3 h4 h5 h6
    simp only [per_page] at h3 h4 ih ⊢
    by_cases hlt : acc.length < max_repos
    · rw [searchLoop, if_pos hlt]
      simp only [per_page]
      have hlen : acc.length = (page - 1) * 100 := by omega
      by_cases hf : failAt = some page
      · have hfe : fetchPage allItems failAt page = Except.error () := by
          simp [fetchPage, hf]
        simp only [hfe]
        refine ⟨h2, by omega, ?_, ?_⟩
        · rintro (hn | h0)
          · rw [hn] at hf
            exact absurd hf (by simp)
          · rw [h0] at hf
            have hp0 : (0 : Nat) = page := by
              have := Option.some.inj hf
              omega
            omega
        · intro q hq hq1
          rw [hf] at hq
          have hqp : page = q := Option.some.inj hq
          subst hqp
          omega
      · have hfo : fetchPage allItems failAt page =
            Except.ok ((allItems.drop ((page - 1) * 100)).take 100) := by
          simp [fetchPage, hf, per_page]
        simp only [hfo]
        have hil : ((allItems.drop ((page - 1) * 100)).take 100).length =
            min 100 (allItems.length - (page - 1) * 100) := by
          simp [List.length_take, List.length_drop]
        by_cases hempty : ((allItems.drop ((page - 1) * 100)).take 100).isEmpty
        · rw [if_pos hempty]
          rw [List.isEmpty_iff_length_eq_zero] at hempty
          refine ⟨h2, by omega, ?_, ?_⟩
          · intro _
            omega
          · intro q hq hq1
            have hpq := h6 q hq hq1
            have hne : q ≠ page := fun h => hf (h ▸ hq)
            omega
        · rw [if_neg hempty]
          have hne0 : ((allItems.drop ((page - 1) * 100)).take 100).length ≠ 0 := by
            intro h0
            exact hempty (List.isEmpty_iff_length_eq_zero.mpr h0)
          have htt : ((allItems.drop ((page - 1) * 100)).take 100).take
              (max_repos - acc.length) =
              (allItems.drop ((page - 1) * 100)).take
                (min (max_repos - acc.length) 100) := List.take_take ..
          have hacc2 : acc ++ ((allItems.drop ((page - 1) * 100)).take 100).take
              (max_repos - acc.length) =
              allItems.take (acc.length + min (max_repos - acc.length) 100) := by
            rw [htt, List.take_add, ← h2, ← hlen]
          have hacc2len : (acc ++ ((allItems.drop ((page - 1) * 100)).take 100).take
              (max_repos - acc.length)).length =
              min (acc.length + min (max_repos - acc.length) 100) allItems.length := by
            rw [hacc2, List.length_take]
          by_cases hshort : ((allItems.drop ((page - 1) * 100)).take 100).length < 100
          · rw [if_pos hshort]
            refine ⟨?_, by omega, ?_, ?_⟩
            · rw [hacc2len, hacc2]
              exact List.take_eq_take.mpr (by omega)
            · intro _
              omega
            · intro q hq hq1
              have hpq := h6 q hq hq1
              have hne : q ≠ page := fun h => hf (h ▸ hq)
              omega
          · rw [if_neg hshort]
            have hfull : ((allItems.drop ((page - 1) * 100)).take 100).length = 100 := by
              omega
            refine ih (page + 1)
              (acc ++ ((allItems.drop ((page - 1) * 100)).take 100).take
                (max_repos - acc.length)) (by omega) ?_ ?_ ?_ ?_ ?_
            · rw [hacc2len, hacc2]
              exact List.take_eq_take.mpr (by omega)
            · rw [hacc2len]
              omega
            · omega
            · rw [hacc2len]
              omega
            · intro q hq hq1
              have hpq := h6 q hq hq1
              have hne : q ≠ page := fun h => hf (h ▸ hq)
              omega
    · rw [searchLoop, if_neg hlt]
      refine ⟨h2, by omega, ?_, ?_⟩
      · intro _
        omega
      · intro q hq hq1
        have hpq := h6 q hq hq1
        omega

/-- C8: the search returns at most targetCount descriptors; the result
is always a prefix of the remote order (so a last page that would
exceed targetCount is truncated to exactly the first items needed, and a
failure returns the partial accumulated results instead of failing the
run); with no failure the length is exactly min targetCount
totalAvailable; with a failure at page q ≥ 1 the length is the
accumulated prefix before that page, again capped by targetCount. -/
theorem C8_search_pagination {α : Type} (allItems : List α) (failAt : Option Nat)
    (max_repos : Nat) :
    (search_repositories allItems failAt max_repos).length ≤ max_repos ∧
    search_repositories allItems failAt max_repos =
      allItems.take (search_repositories allItems failAt max_repos).length ∧
    (failAt = none →
      (search_repositories allItems failAt max_repos).length =
        min max_repos allItems.length) ∧
    (∀ q, failAt = some q → 1 ≤ q →
      (search_repositories allItems failAt max_repos).length =
        min max_repos (min ((q - 1) * per_page) allItems.length)) := by
  have h := searchLoop_spec allItems failAt max_repos (max_repos + 1) 1 []
    (le_refl 1) (by simp) (by simp) (by simp) (by omega)
    (fun q hq hq1 => hq1)
  have htake : search_repositories allItems failAt max_repos =
      searchLoop allItems failAt max_repos (max_repos + 1) 1 [] := by
    unfold search_repositories
    exact List.take_of_length_le h.2.1
  rw [htake]
  exact ⟨h.2.1, h.1, fun hn => h.2.2.1 (Or.inl hn), h.2.2.2⟩

/-- C8 witness: with 3 items, no failure and target 2 the search returns
min 2 3 = 2 items; with a failure at page 1 it returns the empty partial
result. -/
theorem C8_search_pagination_witness :
    (search_repositories [10, 20, 30] none 2).length = min 2 3 ∧
    (search_repositories [10, 20, 30] (some 1) 2).length =
      min 2 (min ((1 - 1) * per_page) 3) :=
  ⟨by
    have h := (C8_search_pagination [10, 20, 30] none 2).2.2.1 rfl
    simpa using h,
   by
    have h := (C8_search_pagination [10, 20, 30] (some 1) 2).2.2.2 1 rfl (le_refl 1)
    simpa using h⟩

end Scraper
